import Mathlib

/-!
Verification of the tabular filter-aggregate pipeline of the
S-P500-Overview repository (src/app.py, src/run.py).

The embedding is shallow: pandas dataframes become Lean lists of typed
rows, numeric columns become rationals, and the external parsers
(pandas `read_csv` / `to_datetime` / yfinance download) are modelled by
their observable outputs (a raw cell either parses or it does not).
-/

namespace SP500

/-! ## Load pipeline (src/app.py, `load_data`, lines 13-48)

`load_data(uploaded_file)`:
  * reads a CSV when the file name ends in `.csv`, an Excel sheet when it
    ends in `.xls`/`.xlsx`, otherwise reports an error and returns `None`;
  * lower-cases column names and replaces spaces and hyphens with
    underscores;
  * looks for the first column whose normalized name has `order_date` as a
    contiguous substring; if none exists it reports an error and returns
    `None`;
  * converts that column with `pd.to_datetime(..., errors='coerce')` and
    drops the rows where conversion failed (`dropna`);
  * derives a `month_year` period string from the date.

The pandas parsers are external: a raw date cell is modelled as
`Option Date` (the output of the robust `to_datetime` coercion), and a raw
sales/profit cell as a `CellVal` that is either a number or a non-numeric
string.  `load_data` itself never touches the sales/profit cells. -/

/-- A calendar date as produced by `pd.to_datetime`. -/
structure Date where
  year : Int
  month : Nat
  day : Nat
deriving DecidableEq, Repr

/-- A raw cell of a numeric-intended column: pandas keeps a string cell as
a string (object dtype); `load_data` performs no numeric coercion. -/
inductive CellVal where
  | num (q : ℚ)
  | str (s : String)
deriving DecidableEq, Repr

/-- Whether a cell holds a number. -/
def CellVal.isNumeric : CellVal → Bool
  | .num _ => true
  | .str _ => false

/-- One row of the raw uploaded table.  `dateCell` is the order-date cell
as seen through `pd.to_datetime(..., errors='coerce')`: `some d` when the
cell parses to the date `d`, `none` (NaT) when it does not. -/
structure RawRow where
  dateCell : Option Date
  salesCell : CellVal
  profitCell : CellVal
  region : String
  category : String
  subCategory : String
  segment : String
  state : String
deriving DecidableEq, Repr

/-- The raw dataframe produced by `pd.read_csv` / `pd.read_excel`:
its column names (used only for the order-date column search) and its
rows. -/
structure RawFrame where
  cols : List String
  rows : List RawRow
deriving DecidableEq, Repr

/-- The uploaded file: its name (whose extension selects the reader) and
the table the reader would produce. -/
structure UploadedFile where
  name : String
  frame : RawFrame
deriving DecidableEq, Repr

/-- Column-name standardization of line 29, on the character list of the
name: `df.columns.str.lower().str.replace(' ', '_').str.replace('-', '_')`. -/
def normalizeChars (cs : List Char) : List Char :=
  (cs.map Char.toLower).map (fun c => if c = ' ' ∨ c = '-' then '_' else c)

/-- Column-name standardization of line 29 on a column name. -/
def normalizeCol (s : String) : String :=
  String.mk (normalizeChars s.data)

/-- Whether `needle` occurs as a contiguous subsequence at the head of
`hay`. -/
def charsStartWith : List Char → List Char → Bool
  | [], _ => true
  | _ :: _, [] => false
  | a :: as, b :: bs => a = b && charsStartWith as bs

/-- Whether `needle` occurs as a contiguous subsequence anywhere in
`hay` (the Python `in` operator on strings). -/
def charsHaveSub (needle : List Char) : List Char → Bool
  | [] => charsStartWith needle []
  | b :: bs => charsStartWith needle (b :: bs) || charsHaveSub needle bs

/-- The date-column search of line 32:
`next((col for col in df.columns if 'order_date' in col), None)`. -/
def findDateCol (cols : List String) : Option String :=
  cols.find? (fun c => charsHaveSub "order_date".data c.data)

/-- Python `str.endswith`, on character lists. -/
def strEndsWith (s suffix : String) : Bool :=
  charsStartWith suffix.data.reverse s.data.reverse

/-- File names accepted by the two reader branches (lines 19-21). -/
def isAcceptedName (n : String) : Bool :=
  strEndsWith n ".csv" || strEndsWith n ".xls" || strEndsWith n ".xlsx"

/-- A row of the loaded table: the parsed date, the derived `month_year`
period (year, month), and the remaining cells carried over verbatim. -/
structure LoadedRow where
  date : Date
  monthYear : Int × Nat
  salesCell : CellVal
  profitCell : CellVal
  region : String
  category : String
  subCategory : String
  segment : String
  state : String
deriving DecidableEq, Repr

/-- Per-row effect of lines 38-42: a row whose date cell failed to parse
is dropped (`dropna`); otherwise the date is kept and `month_year` is
derived; every other cell is carried over unchanged. -/
def coerceRow (r : RawRow) : Option LoadedRow :=
  r.dateCell.map (fun d =>
    { date := d
      monthYear := (d.year, d.month)
      salesCell := r.salesCell
      profitCell := r.profitCell
      region := r.region
      category := r.category
      subCategory := r.subCategory
      segment := r.segment
      state := r.state })

/-- The `load_data` function of lines 13-48.  `none` models the
`st.error(...); return None` paths. -/
def loadData (f : UploadedFile) : Option (List LoadedRow) :=
  if ¬ isAcceptedName f.name then none
  else
    match findDateCol (f.frame.cols.map normalizeCol) with
    | none => none
    | some _ => some (f.frame.rows.filterMap coerceRow)

/-! ## Dashboard pipeline (src/app.py, lines 86-148)

The dashboard code runs on a dataframe whose `Sales` and `Profit` columns
it treats as numeric, so a dashboard row carries rationals there.  The
categorical columns and the derived `Month-Year` period are strings. -/

/-- A row of the dashboard dataframe (after the renaming of lines 88-90). -/
structure Row where
  region : String
  category : String
  subCategory : String
  segment : String
  state : String
  monthYear : String
  sales : ℚ
  profit : ℚ
deriving DecidableEq, Repr

/-- First-seen distinct values of a column, as `pd.Series.unique()`
returns them (lines 94-96 build the multiselect defaults this way). -/
def uniqueVals (f : Row → String) (rows : List Row) : List String :=
  rows.foldl (fun acc r => if f r ∈ acc then acc else acc ++ [f r]) []

/-- The boolean-mask filter of lines 99-103:
`df[df['Region'].isin(region) & df['Category'].isin(category) &
df['Segment'].isin(segment)]`. -/
def applyFilter (rows : List Row) (reg cat seg : List String) : List Row :=
  rows.filter (fun r =>
    reg.contains r.region && cat.contains r.category && seg.contains r.segment)

/-- Truncation toward zero, the behaviour of Python `int()` on a float. -/
def truncQ (q : ℚ) : ℤ :=
  if 0 ≤ q.num then ((q.num.toNat / q.den : ℕ) : ℤ)
  else -(((-q.num).toNat / q.den : ℕ) : ℤ)

/-- `total_sales = int(df_filtered['Sales'].sum())` (line 110). -/
def totalSales (rows : List Row) : ℤ :=
  truncQ ((rows.map Row.sales).sum)

/-- `total_profit = int(df_filtered['Profit'].sum())` (line 111). -/
def totalProfit (rows : List Row) : ℤ :=
  truncQ ((rows.map Row.profit).sum)

/-- `profit_margin = (total_profit / total_sales) * 100 if total_sales > 0
else 0` (line 112). -/
def profitMargin (rows : List Row) : ℚ :=
  if 0 < totalSales rows then ((totalProfit rows : ℚ) / (totalSales rows : ℚ)) * 100
  else 0

/-- The three KPI values of lines 110-112. -/
def summarize (rows : List Row) : ℤ × ℤ × ℚ :=
  (totalSales rows, totalProfit rows, profitMargin rows)

/-- Python `f-string` display rounding to two decimals, as the scaled
integer `round(q * 100)`; adequate for the nonnegative non-tie values it
is applied to here. -/
def round2 (q : ℚ) : ℤ :=
  truncQ (q * 100 + 1 / 2)

/-- The requested ordering of a grouped aggregate: `sort_values` with
`ascending=True`, with `ascending=False`, or no sort at all. -/
inductive SortOrder where
  | asc
  | desc
  | nosort
deriving DecidableEq, Repr

/-- Lexicographic comparison of strings by code point (Python string
order), on character lists. -/
def charsLe : List Char → List Char → Bool
  | [], _ => true
  | _ :: _, [] => false
  | a :: as, b :: bs => if a < b then true else if b < a then false else charsLe as bs

/-- Python string order. -/
def strLe (a b : String) : Bool :=
  charsLe a.data b.data

/-- Group keys in the order pandas `groupby` emits them: `groupby` sorts
the distinct keys ascending (its default `sort=True`). -/
def groupKeys (g : Row → String) (rows : List Row) : List String :=
  List.insertionSort (fun a b => strLe a b) (uniqueVals g rows)

/-- The per-key total of `groupby(g)[v].sum()`. -/
def rowGroupSum (g : Row → String) (v : Row → ℚ) (rows : List Row) (k : String) : ℚ :=
  ((rows.filter (fun r => g r == k)).map v).sum

/-- `df.groupby(g)[v].sum()` followed by an optional
`sort_values(ascending=...)`, as a key-to-total association list.  The
value sort is modelled as an insertion sort; the program's `sort_values`
uses the default quicksort, which gives no tie-order guarantee, and no
theorem below relies on the tie order this model happens to produce. -/
def groupSum (g : Row → String) (v : Row → ℚ) (ord : SortOrder) (rows : List Row) :
    List (String × ℚ) :=
  let pairs := (groupKeys g rows).map (fun k => (k, rowGroupSum g v rows k))
  match ord with
  | .nosort => pairs
  | .asc => List.insertionSort (fun p q => p.2 ≤ q.2) pairs
  | .desc => List.insertionSort (fun p q => q.2 ≤ p.2) pairs

/-- Line 131: `df_filtered.groupby('Category')['Sales'].sum()
.sort_values(ascending=False)`. -/
def salesByCategory (rows : List Row) : List (String × ℚ) :=
  groupSum Row.category Row.sales .desc rows

/-- Line 137: `df_filtered.groupby('Sub-Category')['Profit'].sum()
.sort_values(ascending=True)`. -/
def profitBySubcat (rows : List Row) : List (String × ℚ) :=
  groupSum Row.subCategory Row.profit .asc rows

/-- The `Sales` series of line 123:
`df_filtered.groupby('Month-Year').agg({'Sales':'sum', ...})`. -/
def monthlySalesTrend (rows : List Row) : List (String × ℚ) :=
  groupSum Row.monthYear Row.sales .nosort rows

/-- Reading a key-to-total association list at a key, absent keys reading
as zero. -/
def lookupQ (l : List (String × ℚ)) (k : String) : ℚ :=
  ((l.filter (fun p => p.1 == k)).map Prod.snd).sum

/-! ## Stock analyzer (src/run.py, `get_stock_data`, lines 27-44)

The yfinance download is external; the model starts from the `Close`
price series it returns.  `data['Close'].rolling(window=50).mean()` is
defined (NaN, here `none`) only once 50 observations are available, and
`pct_change()` is undefined at the first row. -/

/-- The dataframe columns `get_stock_data` returns: the close prices and
the two derived indicator columns, `none` standing for NaN. -/
structure StockData where
  close : List ℚ
  ma50 : List (Option ℚ)
  dailyReturn : List (Option ℚ)
deriving DecidableEq, Repr

/-- `data['Close'].rolling(window=50).mean()` (line 39): entry `i` is the
mean of the 50 prices ending at `i` when `i + 1 ≥ 50`, NaN before that. -/
def rollingMean50 (close : List ℚ) : List (Option ℚ) :=
  (List.range close.length).map (fun i =>
    if 50 ≤ i + 1 then some (((close.drop (i + 1 - 50)).take 50).sum / 50)
    else none)

/-- `data['Close'].pct_change()` (line 40): entry `i` is the relative
change from entry `i - 1`, NaN at the first entry. -/
def pctChange (close : List ℚ) : List (Option ℚ) :=
  (List.range close.length).map (fun i =>
    if i = 0 then none
    else some ((close.getD i 0 - close.getD (i - 1) 0) / close.getD (i - 1) 0))

/-- `get_stock_data` (lines 27-44): an empty download is returned as an
empty frame; otherwise the two indicator columns are added. -/
def getStockData (close : List ℚ) : StockData :=
  if close.isEmpty then ⟨[], [], []⟩
  else ⟨close, rollingMean50 close, pctChange close⟩

/-! ## Concrete data used to instantiate the theorems -/

/-- A sample date. -/
def exDate : Date := ⟨2024, 1, 5⟩

/-- A raw row whose date parses but whose sales cell is not numeric. -/
def exRawGood : RawRow :=
  ⟨some exDate, .str "abc", .num 20, "East", "Tech", "Phones", "Consumer", "CA"⟩

/-- A raw row whose date cell fails to parse. -/
def exRawBad : RawRow :=
  ⟨none, .num 50, .num 5, "West", "Tech", "Phones", "Corporate", "WA"⟩

/-- A well-formed CSV upload containing the two raw rows above. -/
def exFile : UploadedFile :=
  ⟨"t.csv", ⟨["Order Date", "Sales", "Profit"], [exRawGood, exRawBad]⟩⟩

/-- The loaded form of `exRawGood`. -/
def exLoaded : LoadedRow :=
  ⟨exDate, (2024, 1), .str "abc", .num 20, "East", "Tech", "Phones", "Consumer", "CA"⟩

/-- The same table uploaded under an unsupported file extension. -/
def exBadExtFile : UploadedFile :=
  ⟨"t.txt", ⟨["Order Date", "Sales", "Profit"], [exRawGood, exRawBad]⟩⟩

/-- A CSV upload with no order-date-like column. -/
def exNoDateFile : UploadedFile :=
  ⟨"t.csv", ⟨["Date", "Sales"], [exRawGood]⟩⟩

/-- A dashboard row in category `B` with sales 10. -/
def pairRowB : Row := ⟨"East", "B", "sc", "seg", "CA", "2024-01", 10, 0⟩

/-- A dashboard row in category `A`, also with sales 10. -/
def pairRowA : Row := ⟨"East", "A", "sc", "seg", "CA", "2024-01", 10, 0⟩

/-- Two rows whose categories tie on total sales; category `B` is seen
first. -/
def tieRows : List Row := [pairRowB, pairRowA]

/-- The two-row example table of the specification:
(Jan 2024, East, Tech, 100, 20) and (Feb 2024, West, Tech, 200, -10). -/
def exampleRows : List Row :=
  [⟨"East", "Tech", "Chairs", "Consumer", "CA", "2024-01", 100, 20⟩,
   ⟨"West", "Tech", "Chairs", "Consumer", "WA", "2024-02", 200, -10⟩]

/-- A one-row table whose exact sales sum is 1/2, strictly between 0
and 1. -/
def tinySalesRows : List Row :=
  [⟨"East", "Tech", "Chairs", "Consumer", "CA", "2024-01", 1 / 2, 3⟩]

/-! ## Supporting lemmas -/

/-- A row is dropped by `coerceRow` exactly when its date cell failed to
parse. -/
lemma coerceRow_eq_none_iff (r : RawRow) : coerceRow r = none ↔ r.dateCell = none := by
  cases h : r.dateCell <;> simp [coerceRow, h]

/-- The explicit image of a row whose date parses. -/
lemma coerceRow_some {r : RawRow} {d : Date} (hd : r.dateCell = some d) :
    coerceRow r = some ⟨d, (d.year, d.month), r.salesCell, r.profitCell,
      r.region, r.category, r.subCategory, r.segment, r.state⟩ := by
  unfold coerceRow
  rw [hd]
  rfl

/-- A successfully coerced row keeps its sales and profit cells verbatim
and records the parsed date. -/
lemma coerceRow_cells {r : RawRow} {lr : LoadedRow} (h : coerceRow r = some lr) :
    lr.salesCell = r.salesCell ∧ lr.profitCell = r.profitCell ∧ r.dateCell = some lr.date := by
  cases hd : r.dateCell with
  | none => rw [(coerceRow_eq_none_iff r).2 hd] at h; exact Option.noConfusion h
  | some d =>
    rw [coerceRow_some hd] at h
    injection h with h2
    subst h2
    exact ⟨rfl, rfl, rfl⟩

/-- Loading keeps as many rows as have a parsed date. -/
lemma length_filterMap_coerceRow (rows : List RawRow) :
    (rows.filterMap coerceRow).length = (rows.filter (fun r => r.dateCell.isSome)).length := by
  induction rows with
  | nil => rfl
  | cons r rs ih =>
    cases h : r.dateCell <;>
      simp [List.filterMap_cons, List.filter_cons, coerceRow, h, ih]

/-- Any successful load result is the row-wise date coercion of the raw
table. -/
lemma loadData_eq_some {f : UploadedFile} {t : List LoadedRow} (h : loadData f = some t) :
    t = f.frame.rows.filterMap coerceRow := by
  unfold loadData at h
  by_cases ha : isAcceptedName f.name
  · simp only [ha, not_true_eq_false, if_false] at h
    cases hd : findDateCol (f.frame.cols.map normalizeCol) with
    | none => rw [hd] at h; simp at h
    | some c => rw [hd] at h; simpa using h.symm
  · simp [ha] at h

/-- Accumulator values survive the fold that computes `uniqueVals`. -/
lemma mem_foldl_uniqueVals (f : Row → String) (v : String) (rows : List Row) :
    ∀ acc : List String, v ∈ acc →
      v ∈ rows.foldl (fun acc r => if f r ∈ acc then acc else acc ++ [f r]) acc := by
  induction rows with
  | nil => intro acc h; exact h
  | cons r rs ih =>
    intro acc h
    simp only [List.foldl_cons]
    apply ih
    by_cases hc : f r ∈ acc
    · simpa [hc]
    · simp [hc, List.mem_append, h]

/-- Every observed value of a column appears in the fold that computes
`uniqueVals`, whatever the starting accumulator. -/
lemma mem_foldl_uniqueVals_of_mem (f : Row → String) {r : Row} :
    ∀ (rows : List Row) (acc : List String), r ∈ rows →
      f r ∈ rows.foldl (fun acc r => if f r ∈ acc then acc else acc ++ [f r]) acc := by
  intro rows
  induction rows with
  | nil => intro acc h; simp at h
  | cons r0 rs ih =>
    intro acc hr
    simp only [List.foldl_cons]
    rcases List.mem_cons.1 hr with h | h
    · subst h
      apply mem_foldl_uniqueVals f (f r) rs
      by_cases hc : f r ∈ acc
      · simp [hc]
      · simp [hc]
    · exact ih _ h

/-- Every observed value of a column appears among its unique values. -/
lemma mem_uniqueVals (f : Row → String) {rows : List Row} {r : Row} (hr : r ∈ rows) :
    f r ∈ uniqueVals f rows :=
  mem_foldl_uniqueVals_of_mem f rows [] hr

/-- The fold that computes `uniqueVals` preserves freedom from
duplicates. -/
lemma nodup_foldl_uniqueVals (f : Row → String) :
    ∀ (rows : List Row) (acc : List String), acc.Nodup →
      (rows.foldl (fun acc r => if f r ∈ acc then acc else acc ++ [f r]) acc).Nodup := by
  intro rows
  induction rows with
  | nil => intro acc h; exact h
  | cons r rs ih =>
    intro acc hnd
    simp only [List.foldl_cons]
    apply ih
    by_cases hc : f r ∈ acc
    · simpa [hc]
    · simp [hc, List.nodup_append, hnd, List.disjoint_singleton]

/-- The unique values of a column are free of duplicates. -/
lemma nodup_uniqueVals (f : Row → String) (rows : List Row) :
    (uniqueVals f rows).Nodup :=
  nodup_foldl_uniqueVals f rows [] List.nodup_nil

/-- A key outside the unique key values has group total zero. -/
lemma rowGroupSum_eq_zero (g : Row → String) (v : Row → ℚ) (rows : List Row) (k : String)
    (hk : k ∉ uniqueVals g rows) : rowGroupSum g v rows k = 0 := by
  unfold rowGroupSum
  have hfil : rows.filter (fun r => g r == k) = [] := by
    rw [List.filter_eq_nil_iff]
    intro r hr hbeq
    exact hk (beq_iff_eq.1 hbeq ▸ mem_uniqueVals g hr)
  simp [hfil]

/-- Reading an association list at a key is invariant under
permutation of its entries. -/
lemma lookupQ_perm {l l' : List (String × ℚ)} (h : l.Perm l') (k : String) :
    lookupQ l k = lookupQ l' k :=
  List.Perm.sum_eq (List.Perm.map _ (h.filter _))

/-- Reading a duplicate-free keyed list built from a value function. -/
lemma lookupQ_map_keys (h : String → ℚ) (k : String) :
    ∀ keys : List String, keys.Nodup →
      lookupQ (keys.map (fun x => (x, h x))) k = if k ∈ keys then h k else 0 := by
  intro keys
  induction keys with
  | nil => intro _; simp [lookupQ]
  | cons a ks ih =>
    intro hnd
    have ha : a ∉ ks := (List.nodup_cons.1 hnd).1
    have hks := ih (List.nodup_cons.1 hnd).2
    by_cases hak : a = k
    · subst hak
      have hka : a ∉ ks → (if a ∈ ks then h a else 0) = 0 := by intro hh; simp [hh]
      simp only [lookupQ, List.map_cons, List.filter_cons] at hks ⊢
      simp only [beq_self_eq_true, if_true, List.map_cons, List.sum_cons]
      rw [hks, hka ha]
      simp
    · have hne : (a == k) = false := beq_eq_false_iff_ne.2 hak
      simp only [lookupQ, List.map_cons, List.filter_cons] at hks ⊢
      simp only [hne, Bool.false_eq_true, if_false]
      rw [hks]
      have hka : ¬ k = a := fun hh => hak hh.symm
      simp [List.mem_cons, hka]

/-- Reading a grouped aggregate at a key gives exactly the total of the
value column over the rows of that group, whatever ordering was
requested; absent keys read as zero. -/
lemma lookupQ_groupSum (g : Row → String) (v : Row → ℚ) (ord : SortOrder) (rows : List Row)
    (k : String) :
    lookupQ (groupSum g v ord rows) k = rowGroupSum g v rows k := by
  have hperm : (groupSum g v ord rows).Perm
      ((groupKeys g rows).map (fun x => (x, rowGroupSum g v rows x))) := by
    cases ord with
    | nosort => exact List.Perm.refl _
    | asc => exact List.perm_insertionSort _ _
    | desc => exact List.perm_insertionSort _ _
  rw [lookupQ_perm hperm]
  have hnd : (groupKeys g rows).Nodup := by
    unfold groupKeys
    exact (List.perm_insertionSort _ _).symm.nodup (nodup_uniqueVals g rows)
  rw [lookupQ_map_keys _ _ _ hnd]
  have hmem : k ∈ groupKeys g rows ↔ k ∈ uniqueVals g rows := by
    unfold groupKeys
    exact (List.perm_insertionSort _ _).mem_iff
  by_cases hk : k ∈ groupKeys g rows
  · simp [hk]
  · have hk2 : k ∉ uniqueVals g rows := fun hh => hk (hmem.2 hh)
    simp [hk, rowGroupSum_eq_zero g v rows k hk2]

/-- Truncation toward zero sends the open unit interval to zero. -/
lemma truncQ_eq_zero {q : ℚ} (h0 : 0 < q) (h1 : q < 1) : truncQ q = 0 := by
  have hnum : 0 < q.num := Rat.num_pos.2 h0
  have hden : (0 : ℚ) < (q.den : ℚ) := by exact_mod_cast q.den_pos
  have h2 : (q.num : ℚ) < (q.den : ℚ) := by
    have h3 : (q.num : ℚ) / (q.den : ℚ) < 1 := by rw [Rat.num_div_den]; exact h1
    exact (div_lt_one hden).1 h3
  have h4 : q.num < (q.den : ℤ) := by exact_mod_cast h2
  unfold truncQ
  rw [if_pos (le_of_lt hnum)]
  have h5 : q.num.toNat < q.den := by omega
  simp [Nat.div_eq_of_lt h5]

/-- Reading an index below the length of a mapped range evaluates the
function there. -/
lemma getD_range_map {β : Type} (f : ℕ → β) (d : β) {n i : ℕ} (hi : i < n) :
    ((List.range n).map f).getD i d = f i := by
  rw [List.getD_eq_getElem?_getD, List.getElem?_map, List.getElem?_range hi]
  rfl

/-! ## Claims -/

set_option maxRecDepth 8000

/-- C1, counterexample: a CSV whose single surviving row has the
non-numeric sales cell `"abc"` loads successfully with that row kept,
so a row whose sales value fails numeric coercion is not dropped and the
loaded table is not all-numeric. -/
theorem c1_counterexample :
    loadData exFile = some [exLoaded] ∧ exLoaded.salesCell.isNumeric = false := by
  with_unfolding_all decide

/-- C1, amended: the load drops rows only for unparsable dates; the
sales and profit cells of every kept row are carried over verbatim from a
date-parsable raw row, with no numeric coercion and no drop for
non-numeric values. -/
theorem c1_load_keeps_cells_verbatim (f : UploadedFile) (t : List LoadedRow)
    (h : loadData f = some t) :
    (∀ lr ∈ t, ∃ r ∈ f.frame.rows,
      r.dateCell ≠ none ∧ lr.salesCell = r.salesCell ∧ lr.profitCell = r.profitCell)
    ∧ (∀ r ∈ f.frame.rows, r.dateCell.isSome = true →
      ∃ lr ∈ t, lr.salesCell = r.salesCell ∧ lr.profitCell = r.profitCell) := by
  have ht := loadData_eq_some h
  subst ht
  constructor
  · intro lr hlr
    obtain ⟨r, hr, hcr⟩ := List.mem_filterMap.1 hlr
    obtain ⟨hs, hp, hdc⟩ := coerceRow_cells hcr
    refine ⟨r, hr, ?_, hs, hp⟩
    intro hd
    rw [hd] at hdc
    exact Option.noConfusion hdc
  · intro r hr hd
    cases hdc : r.dateCell with
    | none => rw [hdc] at hd; exact Bool.noConfusion hd
    | some d =>
      exact ⟨_, List.mem_filterMap.2 ⟨r, hr, coerceRow_some hdc⟩, rfl, rfl⟩

/-- C1, witness: the amended statement applied to the concrete upload
whose surviving row has a string-valued sales cell. -/
theorem c1_witness :
    ∃ r ∈ exFile.frame.rows, r.dateCell ≠ none ∧
      exLoaded.salesCell = r.salesCell ∧ exLoaded.profitCell = r.profitCell :=
  (c1_load_keeps_cells_verbatim exFile [exLoaded] (by with_unfolding_all decide)).1
    exLoaded (List.mem_singleton.2 rfl)

/-- C2, counterexample: with two categories tying on total sales, the
first-seen key order is `B` then `A`, yet the descending sales-by-category
result lists `A` before `B` (the groupby sorts keys), so ties are not
broken by first-seen group key. -/
theorem c2_counterexample :
    salesByCategory tieRows = [("A", (10 : ℚ)), ("B", 10)]
    ∧ uniqueVals Row.category tieRows = ["B", "A"]
    ∧ salesByCategory tieRows ≠ [("B", (10 : ℚ)), ("A", 10)] := by
  with_unfolding_all decide

/-- C2, amended: the descending sales-by-category and ascending
profit-by-sub-category aggregates are sorted by the summed value; groups
with equal sums are not guaranteed to appear in first-seen group-key
order, since the groupby sorts the keys before the value sort runs and
the value sort promises no tie order. -/
theorem c2_groupSum_sorted (rows : List Row) :
    List.Sorted (fun p q : String × ℚ => q.2 ≤ p.2) (salesByCategory rows)
    ∧ List.Sorted (fun p q : String × ℚ => p.2 ≤ q.2) (profitBySubcat rows) := by
  constructor
  · haveI h1 : IsTotal (String × ℚ) (fun p q => q.2 ≤ p.2) := ⟨fun a b => le_total b.2 a.2⟩
    haveI h2 : IsTrans (String × ℚ) (fun p q => q.2 ≤ p.2) :=
      ⟨fun a b c hab hbc => le_trans hbc hab⟩
    exact List.sorted_insertionSort _ _
  · haveI h1 : IsTotal (String × ℚ) (fun p q : String × ℚ => p.2 ≤ q.2) :=
      ⟨fun a b => le_total a.2 b.2⟩
    haveI h2 : IsTrans (String × ℚ) (fun p q : String × ℚ => p.2 ≤ q.2) :=
      ⟨fun a b c hab hbc => le_trans hab hbc⟩
    exact List.sorted_insertionSort _ _

/-- C3: summarize of the empty table is all zeros, and for every table
the margin division only happens under the guard `totalSales > 0` —
otherwise the margin is the literal 0. -/
theorem c3_summarize_empty_guard :
    summarize ([] : List Row) = (0, 0, 0)
    ∧ ∀ rows : List Row, 0 < totalSales rows ∨ profitMargin rows = 0 := by
  constructor
  · with_unfolding_all decide
  · intro rows
    by_cases h : 0 < totalSales rows
    · exact Or.inl h
    · exact Or.inr (by simp [profitMargin, h])

/-- C4: an upload whose name has an unrecognized extension, or whose
normalized columns contain no order-date-like column, makes the load
return the error result and no table. -/
theorem c4_load_error_paths (f : UploadedFile)
    (h : isAcceptedName f.name = false
      ∨ findDateCol (f.frame.cols.map normalizeCol) = none) :
    loadData f = none := by
  unfold loadData
  rcases h with h | h
  · simp [h]
  · by_cases ha : isAcceptedName f.name
    · simp [ha, h]
    · simp [ha]

/-- C4, witness: a `.txt` upload and a CSV without a date column both
fail to load. -/
theorem c4_witness : loadData exBadExtFile = none ∧ loadData exNoDateFile = none :=
  ⟨c4_load_error_paths exBadExtFile (Or.inl (by with_unfolding_all decide)),
   c4_load_error_paths exNoDateFile (Or.inr (by with_unfolding_all decide))⟩

/-- C5: a successful load keeps exactly the rows whose date cell parses:
the kept row count equals the count of date-parsable raw rows and is at
most the raw row count, every date-parsable raw row contributes its
coerced image to the table, and every kept row is the coerced image of a
date-parsable raw row. -/
theorem c5_drops_exactly_unparsable_dates (f : UploadedFile) (t : List LoadedRow)
    (h : loadData f = some t) :
    t.length = (f.frame.rows.filter (fun r => r.dateCell.isSome)).length
    ∧ t.length ≤ f.frame.rows.length
    ∧ (∀ r ∈ f.frame.rows, ∀ d : Date, r.dateCell = some d →
        ∃ lr ∈ t, coerceRow r = some lr)
    ∧ (∀ lr ∈ t, ∃ r ∈ f.frame.rows, ∃ d : Date,
        r.dateCell = some d ∧ coerceRow r = some lr) := by
  have ht := loadData_eq_some h
  subst ht
  refine ⟨length_filterMap_coerceRow _, ?_, ?_, ?_⟩
  · rw [length_filterMap_coerceRow]
    exact List.length_filter_le _ _
  · intro r hr d hd
    exact ⟨_, List.mem_filterMap.2 ⟨r, hr, coerceRow_some hd⟩, coerceRow_some hd⟩
  · intro lr hlr
    obtain ⟨r, hr, hcr⟩ := List.mem_filterMap.1 hlr
    cases hd : r.dateCell with
    | none => rw [(coerceRow_eq_none_iff r).2 hd] at hcr; exact Option.noConfusion hcr
    | some d => exact ⟨r, hr, d, hd, hcr⟩

/-- C5, witness: the concrete upload with one parsable and one
unparsable date keeps exactly one row. -/
theorem c5_witness :
    ([exLoaded] : List LoadedRow).length
      = (exFile.frame.rows.filter (fun r => r.dateCell.isSome)).length
    ∧ ([exLoaded] : List LoadedRow).length ≤ exFile.frame.rows.length :=
  ⟨(c5_drops_exactly_unparsable_dates exFile [exLoaded] (by with_unfolding_all decide)).1,
   (c5_drops_exactly_unparsable_dates exFile [exLoaded] (by with_unfolding_all decide)).2.1⟩

/-- C6: summarize returns the truncated sales and profit sums together
with the guarded margin, and on the specification's two-row example table
it returns total sales 300, total profit 10, and margin 10/3 percent,
displayed as 3.33. -/
theorem c6_summarize_totals :
    (∀ rows : List Row,
      summarize rows = (truncQ ((rows.map Row.sales).sum),
        truncQ ((rows.map Row.profit).sum), profitMargin rows))
    ∧ summarize exampleRows = (300, 10, 10 / 3)
    ∧ round2 ((10 : ℚ) / 3) = 333 := by
  refine ⟨fun rows => rfl, ?_, ?_⟩
  · with_unfolding_all decide
  · with_unfolding_all decide

/-- C7: filtering with selections that cover all observed values of
region, category and segment returns the table unchanged, same rows in
the same order. -/
theorem c7_filter_identity (rows : List Row) :
    applyFilter rows (uniqueVals Row.region rows) (uniqueVals Row.category rows)
      (uniqueVals Row.segment rows) = rows := by
  unfold applyFilter
  apply List.filter_eq_self.2
  intro r hr
  have h1 : r.region ∈ uniqueVals Row.region rows := mem_uniqueVals Row.region hr
  have h2 : r.category ∈ uniqueVals Row.category rows := mem_uniqueVals Row.category hr
  have h3 : r.segment ∈ uniqueVals Row.segment rows := mem_uniqueVals Row.segment hr
  simp [List.contains_iff_exists_mem_beq]
  exact ⟨⟨h1, h2⟩, h3⟩

/-- C8: for any two tables, any grouping and value columns, and any
requested ordering, the grouped total of the concatenation at each key is
the sum of the two per-table grouped totals at that key, keys absent from
a side contributing zero. -/
theorem c8_groupSum_additive (T1 T2 : List Row) (g : Row → String) (v : Row → ℚ)
    (ord : SortOrder) (k : String) :
    lookupQ (groupSum g v ord (T1 ++ T2)) k
      = lookupQ (groupSum g v ord T1) k + lookupQ (groupSum g v ord T2) k := by
  rw [lookupQ_groupSum, lookupQ_groupSum, lookupQ_groupSum]
  unfold rowGroupSum
  rw [List.filter_append, List.map_append, List.sum_append]

/-- C9: the 50-day moving-average column of a stock download is undefined
on every row with index below 49, the daily-return column is undefined on
the first row, and for a non-empty series shorter than 50 rows the
last-row moving average — the one shown as the key metric — is undefined. -/
theorem c9_indicator_nan_leading (close : List ℚ) :
    (∀ i : ℕ, i < 49 → i < close.length →
      (getStockData close).ma50.getD i (some 0) = none)
    ∧ (close ≠ [] → (getStockData close).dailyReturn.getD 0 (some 0) = none)
    ∧ (0 < close.length → close.length < 50 →
      (getStockData close).ma50.getD (close.length - 1) (some 0) = none) := by
  have hne : ∀ a : ℚ, ∀ t : List ℚ, getStockData (a :: t)
      = ⟨a :: t, rollingMean50 (a :: t), pctChange (a :: t)⟩ := fun a t => rfl
  refine ⟨?_, ?_, ?_⟩
  · intro i h49 hlen
    cases close with
    | nil => simp at hlen
    | cons a t =>
      rw [hne]
      show (rollingMean50 (a :: t)).getD i (some 0) = none
      unfold rollingMean50
      rw [getD_range_map _ _ hlen]
      have hlt : ¬ 50 ≤ i + 1 := by omega
      simp [hlt]
  · intro hc
    cases close with
    | nil => exact absurd rfl hc
    | cons a t =>
      rw [hne]
      show (pctChange (a :: t)).getD 0 (some 0) = none
      unfold pctChange
      have h0 : 0 < (a :: t).length := by simp
      rw [getD_range_map _ _ h0]
      simp
  · intro hpos hlt
    cases close with
    | nil => simp at hpos
    | cons a t =>
      rw [hne]
      show (rollingMean50 (a :: t)).getD ((a :: t).length - 1) (some 0) = none
      unfold rollingMean50
      have hl : (a :: t).length - 1 < (a :: t).length := by simp
      rw [getD_range_map _ _ hl]
      have hno : ¬ 50 ≤ ((a :: t).length - 1) + 1 := by
        simp only [List.length_cons] at hlt ⊢
        omega
      rw [if_neg hno]

/-- C9, witness: on a three-price series, the moving average is undefined
at index 1 and at the last row, and the daily return is undefined at the
first row. -/
theorem c9_witness :
    (getStockData [1, 2, 3]).ma50.getD 1 (some 0) = none
    ∧ (getStockData [1, 2, 3]).dailyReturn.getD 0 (some 0) = none
    ∧ (getStockData [1, 2, 3]).ma50.getD (([1, 2, 3] : List ℚ).length - 1) (some 0) = none :=
  ⟨(c9_indicator_nan_leading [1, 2, 3]).1 1 (by decide) (by decide),
   (c9_indicator_nan_leading [1, 2, 3]).2.1 (by decide),
   (c9_indicator_nan_leading [1, 2, 3]).2.2 (by decide) (by decide)⟩

/-- C10: the margin is computed from the integer-truncated totals, and a
table whose exact sales sum lies strictly between 0 and 1 reports total
sales 0 and margin 0. -/
theorem c10_margin_truncated_totals :
    (∀ rows : List Row, profitMargin rows =
      if 0 < truncQ ((rows.map Row.sales).sum)
      then 100 * ((truncQ ((rows.map Row.profit).sum) : ℚ)
        / (truncQ ((rows.map Row.sales).sum) : ℚ))
      else 0)
    ∧ ∀ rows : List Row, 0 < (rows.map Row.sales).sum → (rows.map Row.sales).sum < 1 →
      totalSales rows = 0 ∧ profitMargin rows = 0 := by
  constructor
  · intro rows
    unfold profitMargin totalSales totalProfit
    by_cases h : 0 < truncQ ((rows.map Row.sales).sum)
    · rw [if_pos h, if_pos h]
      ring
    · rw [if_neg h, if_neg h]
  · intro rows h0 h1
    have hts : totalSales rows = 0 := truncQ_eq_zero h0 h1
    refine ⟨hts, ?_⟩
    unfold profitMargin
    rw [hts]
    simp

/-- C10, witness: the one-row table with sales 1/2 has truncated total
sales 0 and margin 0. -/
theorem c10_witness : totalSales tinySalesRows = 0 ∧ profitMargin tinySalesRows = 0 :=
  c10_margin_truncated_totals.2 tinySalesRows
    (by with_unfolding_all decide) (by with_unfolding_all decide)

end SP500
